import Mathlib

/-!
# Cover-art relay server (`coverart-server/server.js`)

A shallow embedding of the three request handlers of `server.js` (`/proxy`,
`/upload`, `/images`) and of the retention sweep `cleanupOldImages`, together with
the properties of the upload / store / sweep life cycle.

Conventions of the embedding

* JavaScript strings are lists of characters (`Str`), buffers are lists of bytes.  The
  value of a request header is a string of Latin-1 characters, as Node delivers it.
* `Date.now()` and `mtime.getTime()` are integer millisecond counts (`Int`).  A date
  value is bounded by 8.64e15 in absolute value, far below 1e21, so the template
  literal prints such a number in plain decimal notation (`numberToString`).
* The storage directory `IMAGE_DIR` is an association list from file names to files.
* Everything the handlers obtain from their environment (the MD5 digest of the
  `crypto` library, the outcome of an outbound `fetch`, the failure of a file-system
  call, the clock, what `express.json()` makes of a JSON request) is an explicit
  argument.
* The body parsers of lines 22-23 are those of Express 4 (the router of Express 5 does
  not accept the path `'*'` of line 86): `body-parser` with the media-type matching of
  `type-is` and `media-typer`.  A request is its body, if it carries one, and its
  `content-type` header; it has no `content-encoding`, and the size limits of the
  parsers are not modelled.
* Logging (`console.log`, `console.error`) is not modelled.
-/

namespace CoverArt

/-! ## Data model -/

/-- A JavaScript string, as the list of its characters. -/
abbrev Str := List Char

/-- One octet of a buffer. -/
abbrev Byte := Fin 256

/-- The contents of a `Buffer`. -/
abbrev Bytes := List Byte

/-- A stored image file: its bytes and the last-modified time kept by the file
system (`stats.mtime.getTime()`, in epoch milliseconds). -/
structure File where
  content : Bytes
  mtime : Int
  deriving DecidableEq, Repr

/-- The storage directory `IMAGE_DIR`: file names with their files. -/
abbrev Dir := List (Str × File)

/-- What a handler sends as the response body. -/
inductive RespBody where
  /-- The argument of `res.send(<string>)`. -/
  | text (s : Str)
  /-- The argument of `res.json`: an object with the single field `url`. -/
  | jsonUrl (url : Str)
  /-- Raw bytes: a piped upstream body, or a file served statically. -/
  | bytes (b : Bytes)
  /-- The page with which the error handler of the framework answers an error that a
  middleware raised. -/
  | errorPage
  deriving DecidableEq, Repr

/-- An HTTP response: the status code (200 unless `res.status` sets another), the
headers the code of `server.js` sets with `res.setHeader`, as name and value on the
wire and in the order of the calls, and the body. -/
structure Response where
  status : Nat
  headers : List (Str × Str)
  body : RespBody
  deriving DecidableEq, Repr

/-- The value of `req.body` when the upload handler runs. -/
inductive ReqBody where
  /-- The value `undefined`.  The parsers of lines 22-23 never leave it. -/
  | undefined
  /-- A `Buffer` with these bytes, left by `express.raw` (line 23). -/
  | buffer (bytes : Bytes)
  /-- A plain object or array: the `\x7b\x7d` the parsers leave when they take nothing, or
  what `express.json()` parsed.  The flag tells whether its `length` is `0`, which
  it is not for `\x7b\x7d`. -/
  | object (lengthIsZero : Bool)
  deriving DecidableEq, Repr

/-- What `express.json()` (line 22) makes of a request it takes. -/
inductive JsonOutcome where
  /-- The parser raises an error with this status; the handler does not run. -/
  | refused (status : Nat)
  /-- The parsed object or array, as far as the handler looks at it: whether its
  `length` is `0`. -/
  | parsed (lengthIsZero : Bool)
  deriving DecidableEq, Repr

/-- The outcome of the body parsers of lines 22-23. -/
inductive Parsed where
  /-- A parser raised an error with this status; the framework answers it. -/
  | refused (status : Nat)
  /-- The handler runs with this `req.body`. -/
  | body (b : ReqBody)
  deriving DecidableEq, Repr

/-- An error thrown by a file-system or network call. -/
inductive IoError where
  | readdirFailed
  | statFailed (file : Str)
  | unlinkFailed (file : Str)
  | fetchFailed
  deriving DecidableEq, Repr

/-! ## String helpers -/

/-- The function `String.prototype.split` with a one-character separator: the pieces
between the occurrences of `sep`; a string without `sep` gives one piece. -/
def split (sep : Char) : Str → List Str
  | [] => [[]]
  | c :: cs =>
    if c = sep then [] :: split sep cs
    else
      match split sep cs with
      | [] => [[c]]
      | piece :: rest => (c :: piece) :: rest

/-- The operator `a || b` on a possibly undefined string: `b` when `a` is
`undefined` or the empty string (the two falsy cases), otherwise `a`. -/
def orElse (a : Option Str) (b : Str) : Str :=
  match a with
  | none => b
  | some s => if s.isEmpty then b else s

/-- The template-literal rendering of an integer-valued number: decimal digits, with
a leading minus sign for a negative value. -/
def numberToString : Int → Str
  | Int.ofNat n => Nat.toDigits 10 n
  | Int.negSucc n => '-' :: Nat.toDigits 10 (n + 1)

/-- The two lowercase hexadecimal digits of one byte. -/
def hexByte (b : Byte) : Str :=
  [Nat.digitChar (b.val / 16), Nat.digitChar (b.val % 16)]

/-- The result of `.digest('hex')`: the bytes of a digest in lowercase hexadecimal. -/
def hexDigest (digest : Bytes) : Str :=
  digest.flatMap hexByte

/-! ## Media types (`type-is`, `media-typer`) -/

/-- The characters of `[A-Za-z0-9!#$&^_-]`. -/
def isTypeChar (c : Char) : Bool :=
  c.isAlphanum || "!#$&^_-".toList.contains c

/-- The characters of `[A-Za-z0-9!#$&^_.+-]`, which the subtype of a media type may
hold when it is parsed. -/
def isSubtypeChar (c : Char) : Bool :=
  isTypeChar c || c == '.' || c == '+'

/-- The characters of `[A-Za-z0-9!#$&^_.-]`, which a subtype without its suffix may
hold when it is formatted. -/
def isSubtypeNameChar (c : Char) : Bool :=
  isTypeChar c || c == '.'

/-- The characters of an RFC 2616 token, for the names and plain values of parameters. -/
def isTokenChar (c : Char) : Bool :=
  c.isAlphanum || "!#$%&'*+-.^_`|~".toList.contains c

/-- The characters a quoted parameter value holds unescaped:
`[ !#-[]-~\u0080-ÿ]`. -/
def isQuotedText (c : Char) : Bool :=
  c == ' ' || c == '!' || (0x23 ≤ c.toNat && c.toNat ≤ 0x5b)
    || (0x5d ≤ c.toNat && c.toNat ≤ 0x7e) || (0x80 ≤ c.toNat && c.toNat ≤ 0xff)

/-- A restricted name: a letter or digit followed by at most 126 further characters. -/
def isRestrictedName (more : Char → Bool) : Str → Bool
  | [] => false
  | c :: cs => c.isAlphanum && cs.all more && decide (cs.length ≤ 126)

/-- The string without its leading and trailing spaces. -/
def trimSpaces (s : Str) : Str :=
  ((s.dropWhile (· == ' ')).reverse.dropWhile (· == ' ')).reverse

/-- What follows a quoted parameter value, read from behind its opening quote; `none`
when the value is not closed or holds a character it may not. -/
def skipQuoted : Str → Option Str
  | [] => none
  | '"' :: rest => some rest
  | '\\' :: c :: rest =>
    if 0x20 ≤ c.toNat && c.toNat ≤ 0x7e then skipQuoted rest else none
  | c :: rest => if isQuotedText c then skipQuoted rest else none

/-- What follows one parameter `name = value`, read from behind its `;`, with the
spaces after it; `none` when there is no well-formed parameter. -/
def skipParam (s : Str) : Option Str :=
  let s₁ := s.dropWhile (· == ' ')
  if (s₁.takeWhile isTokenChar).isEmpty then none
  else
    match (s₁.dropWhile isTokenChar).dropWhile (· == ' ') with
    | '=' :: s₂ =>
      match s₂.dropWhile (· == ' ') with
      | '"' :: quoted => (skipQuoted quoted).map (fun rest => rest.dropWhile (· == ' '))
      | value =>
        if (value.takeWhile isTokenChar).isEmpty then none
        else some ((value.dropWhile isTokenChar).dropWhile (· == ' '))
    | _ => none

/-- Whether a string is a sequence of well-formed parameters, each led by `;`. -/
def paramsValid : Nat → Str → Bool
  | _, [] => true
  | 0, _ :: _ => false
  | fuel + 1, c :: s =>
    if c == ';' then
      match skipParam s with
      | some rest => paramsValid fuel rest
      | none => false
    else false

/-- The subtype as `media-typer` formats it: split at its last `+` into subtype and
suffix, both checked, and put together again (an empty suffix is dropped). -/
def formatSubtype (sub : Str) : Option Str :=
  if sub.contains '+' then
    let suffix := (sub.reverse.takeWhile (· != '+')).reverse
    let base := ((sub.reverse.dropWhile (· != '+')).drop 1).reverse
    if isRestrictedName isSubtypeNameChar base
        && (suffix.isEmpty || isRestrictedName isTypeChar suffix) then
      some (if suffix.isEmpty then base else base ++ '+' :: suffix)
    else none
  else if isRestrictedName isSubtypeNameChar sub then some sub
  else none

/-- The media type of a `content-type` header as `type-is` normalises it (parse with
`media-typer`, drop the parameters, format): type and subtype in lower case, or `none`
when the header is absent, empty or not a well-formed media type. -/
def mediaType (header : Option Str) : Option (Str × Str) :=
  match header with
  | none => none
  | some value =>
    if value.isEmpty then none
    else if !(paramsValid (value.length + 1) (value.dropWhile (· != ';'))) then none
    else
      match split '/' ((trimSpaces (value.takeWhile (· != ';'))).map Char.toLower) with
      | [type, sub] =>
        if isRestrictedName isTypeChar type && isRestrictedName isSubtypeChar sub then
          (formatSubtype sub).map (fun sub' => (type, sub'))
        else none
      | _ => none

/-- The filter of `express.json()` (line 22): the media type is `application/json`. -/
def isJsonType (header : Option Str) : Bool :=
  mediaType header == some ("application".toList, "json".toList)

/-- The filter `type: 'image/*'` of `express.raw` (line 23): the type is `image`. -/
def isImageType (header : Option Str) : Bool :=
  match mediaType header with
  | some (type, _) => type == "image".toList
  | none => false

/-- Lines 22-23: what the body parsers leave in `req.body`.  `body` is the body of the
request (`none` when the request carries none, that is neither a `content-length` nor
a `transfer-encoding` header) and `json` what `express.json()` makes of a request of
type `application/json`.  Both parsers start from `{}` and leave it when the request
has no body or not their type; `express.raw` turns a body of an image type into a
`Buffer`. -/
def parseBody (json : Str → Bytes → JsonOutcome) (body : Option Bytes)
    (contentTypeHeader : Option Str) : Parsed :=
  match body with
  | none => Parsed.body (ReqBody.object false)
  | some raw =>
    if isJsonType contentTypeHeader then
      match json (contentTypeHeader.getD []) raw with
      | JsonOutcome.refused status => Parsed.refused status
      | JsonOutcome.parsed lengthIsZero => Parsed.body (ReqBody.object lengthIsZero)
    else if isImageType contentTypeHeader then Parsed.body (ReqBody.buffer raw)
    else Parsed.body (ReqBody.object false)

/-! ## File-system operations on the storage directory -/

/-- The call `fs.readdir(IMAGE_DIR)`: the names of the entries. -/
def readdir (dir : Dir) : List Str :=
  dir.map Prod.fst

/-- The file a name refers to, if there is one. -/
def lookupFile (dir : Dir) (name : Str) : Option File :=
  (dir.find? (fun e => e.1 == name)).map Prod.snd

/-- The effect of a successful `fs.unlink`: the entry of that name is removed. -/
def unlink (dir : Dir) (name : Str) : Dir :=
  dir.filter (fun e => !(e.1 == name))

/-- The effect of a successful `fs.writeFile`: the file of that name is created, or
replaced, with the given bytes; the file system stamps it with the time of the
write. -/
def writeFile (dir : Dir) (name : Str) (content : Bytes) (mtime : Int) : Dir :=
  unlink dir name ++ [(name, { content := content, mtime := mtime })]

/-- Which file-system calls fail.  A call that fails changes nothing. -/
structure Faults where
  writeFails : Str → Bool
  readdirFails : Bool
  statFails : Str → Bool
  unlinkFails : Str → Bool

/-- The environment in which every file-system call succeeds. -/
def noFaults : Faults :=
  { writeFails := fun _ => false
    readdirFails := false
    statFails := fun _ => false
    unlinkFails := fun _ => false }

/-! ## The retention sweep (`cleanupOldImages`, lines 91-114) -/

/-- The retention window: `24 * 60 * 60 * 1000` milliseconds. -/
def oneDayMs : Int := 24 * 60 * 60 * 1000

/-- The body of the inner `try` (lines 99-106) for one listed name: `stat` the file,
compute its age, and `unlink` it when the age exceeds the window.  A failing `stat`
(also of a name that no longer exists) or `unlink` throws. -/
def sweepEntry (faults : Faults) (now : Int) (dir : Dir) (file : Str) : Except IoError Dir :=
  if faults.statFails file then Except.error (IoError.statFailed file)
  else
    match lookupFile dir file with
    | none => Except.error (IoError.statFailed file)
    | some stats =>
      let fileAge := now - stats.mtime
      if fileAge > oneDayMs then
        if faults.unlinkFails file then Except.error (IoError.unlinkFailed file)
        else Except.ok (unlink dir file)
      else Except.ok dir

/-- The `for` loop over the listing (lines 97-110): the inner `catch` logs the error
of an entry and the loop goes on with the next name. -/
def sweepLoop (faults : Faults) (now : Int) : Dir → List Str → Dir
  | dir, [] => dir
  | dir, file :: rest =>
    match sweepEntry faults now dir file with
    | Except.ok dir' => sweepLoop faults now dir' rest
    | Except.error _ => sweepLoop faults now dir rest

/-- The body of the outer `try` (lines 93-110): list the directory, read the clock,
sweep the listed names.  Only a failing `readdir` throws here. -/
def cleanupTry (faults : Faults) (now : Int) (dir : Dir) : Except IoError Dir :=
  if faults.readdirFails then Except.error IoError.readdirFailed
  else Except.ok (sweepLoop faults now dir (readdir dir))

/-- The function `cleanupOldImages`: the outer `catch` logs a listing failure and the
sweep ends without removing anything.  `now` is the value of `Date.now()` at line 94. -/
def cleanupOldImages (faults : Faults) (now : Int) (dir : Dir) : Dir :=
  match cleanupTry faults now dir with
  | Except.ok dir' => dir'
  | Except.error _ => dir

/-! ## The upload handler (`app.post('/upload')`, lines 51-82) -/

/-- Lines 62-66: the name under which an upload is stored.  `md5` is the digest
function of `crypto.createHash('md5')`, `contentTypeHeader` the value of
`req.headers['content-type']` (`none` when the header is absent) and `now` the value
of `Date.now()` at line 63. -/
def uploadFilename (md5 : Bytes → Bytes) (body : Bytes) (contentTypeHeader : Option Str)
    (now : Int) : Str :=
  let hash := hexDigest (md5 body)
  let imageId := hash ++ '-' :: numberToString now
  let contentType := orElse contentTypeHeader "image/jpeg".toList
  let ext := orElse (split '/' contentType)[1]? "jpg".toList
  imageId ++ '.' :: ext

/-- What one run of the upload handler leaves behind: the response, the storage
directory after the handler's own file operation, and whether the handler called
`cleanupOldImages()` (line 76). -/
structure UploadResult where
  response : Response
  dir : Dir
  sweepCalled : Bool
  deriving DecidableEq, Repr

/-- The upload handler (lines 56-81) on the `req.body` the parsers left.  `writeTime`
is the time with which the file system stamps the written file.  The guard of line 57
answers 400 for `undefined` and for a `length` of `0`; `md5.update` (line 62) throws on
anything but a buffer, and the `catch` answers 500.  The derived name never contains
`/`, so `path.join(IMAGE_DIR, filename)` is the entry `filename` of the directory.  A
`writeFile` that throws is taken to leave the directory as it was. -/
def uploadHandler (md5 : Bytes → Bytes) (faults : Faults) (dir : Dir) (reqBody : ReqBody)
    (contentTypeHeader : Option Str) (now writeTime : Int) : UploadResult :=
  let noData : UploadResult :=
    { response :=
        { status := 400, headers := [], body := RespBody.text "No image data provided".toList }
      dir := dir
      sweepCalled := false }
  let serverError : UploadResult :=
    { response := { status := 500, headers := [], body := RespBody.text "Server error".toList }
      dir := dir
      sweepCalled := false }
  match reqBody with
  | ReqBody.undefined => noData
  | ReqBody.object lengthIsZero => if lengthIsZero then noData else serverError
  | ReqBody.buffer buf =>
    if buf.length = 0 then noData
    else
      let filename := uploadFilename md5 buf contentTypeHeader now
      if faults.writeFails filename then serverError
      else
        let imageUrl := "/images/".toList ++ filename
        { response := { status := 200, headers := [], body := RespBody.jsonUrl imageUrl }
          dir := writeFile dir filename buf writeTime
          sweepCalled := true }

/-- A `POST /upload` request through the body parsers (lines 22-23) and the handler
(lines 51-82).  `body` is the body of the request (`none` when it carries none) and
`contentTypeHeader` its `content-type` header (`none` when absent).  An error of a
parser is answered by the framework and the handler does not run. -/
def upload (md5 : Bytes → Bytes) (json : Str → Bytes → JsonOutcome) (faults : Faults)
    (dir : Dir) (body : Option Bytes) (contentTypeHeader : Option Str)
    (now writeTime : Int) : UploadResult :=
  match parseBody json body contentTypeHeader with
  | Parsed.refused status =>
    { response := { status := status, headers := [], body := RespBody.errorPage }
      dir := dir
      sweepCalled := false }
  | Parsed.body reqBody => uploadHandler md5 faults dir reqBody contentTypeHeader now writeTime

/-- An upload followed by the sweep it starts, run to its end: the response and the
storage directory once the sweep is over.  `sweepNow` is the value of `Date.now()`
the sweep reads at line 94. -/
def uploadThenSweep (md5 : Bytes → Bytes) (json : Str → Bytes → JsonOutcome) (faults : Faults)
    (dir : Dir) (body : Option Bytes) (contentTypeHeader : Option Str)
    (now writeTime sweepNow : Int) : Response × Dir :=
  let r := upload md5 json faults dir body contentTypeHeader now writeTime
  (r.response, if r.sweepCalled then cleanupOldImages faults sweepNow r.dir else r.dir)

/-! ## The static endpoint (`app.use('/images', express.static(IMAGE_DIR))`, line 84) -/

/-- The remainder of `s` after the leading `pre`, when `s` starts with `pre`. -/
def dropLeading : Str → Str → Option Str
  | [], s => some s
  | _ :: _, [] => none
  | p :: ps, c :: cs => if p = c then dropLeading ps cs else none

/-- The catch-all responder of line 86: status 404 with a body naming the path. -/
def notFound (path : Str) : Response :=
  { status := 404, headers := [], body := RespBody.text ("Path not found: ".toList ++ path) }

/-- A `GET` of `path` as the static endpoint and the catch-all after it answer it:
`/images/<name>` is the file `<name>` of the storage directory, served with its bytes;
every other path, and a name with no file, reaches the catch-all. -/
def serveImage (dir : Dir) (path : Str) : Response :=
  match dropLeading "/images/".toList path with
  | none => notFound path
  | some name =>
    match lookupFile dir name with
    | none => notFound path
    | some f => { status := 200, headers := [], body := RespBody.bytes f.content }

/-! ## The proxy handler (`app.get('/proxy')`, lines 25-49) -/

/-- The response of an outbound `fetch` that completed: its status, the result of
`response.headers.get('content-type')` (`none` for `null`, when the upstream sends no
such header) and the bytes of its body. -/
structure Upstream where
  status : Nat
  contentType : Option Str
  body : Bytes
  deriving DecidableEq, Repr

/-- The field `response.ok`: the status is in the range 200-299. -/
def Upstream.ok (r : Upstream) : Bool :=
  decide (200 ≤ r.status) && decide (r.status ≤ 299)

/-- The text `res.setHeader` puts on the wire for a value: a string as it is, and
`null` as the four letters `null`. -/
def headerText (value : Option Str) : Str :=
  match value with
  | some s => s
  | none => "null".toList

/-- The proxy handler.  `imageUrl` is `req.query.url` (`none` when the parameter is
absent) and `fetch` gives the outcome of the outbound request for each address: a
completed response, or a thrown network error. -/
def proxy (fetch : Str → Except IoError Upstream) (imageUrl : Option Str) : Response :=
  match imageUrl with
  | none => { status := 400, headers := [], body := RespBody.text "Missing URL parameter".toList }
  | some url =>
    if url.isEmpty then
      { status := 400, headers := [], body := RespBody.text "Missing URL parameter".toList }
    else
      match fetch url with
      | Except.error _ =>
        { status := 500, headers := [], body := RespBody.text "Server error".toList }
      | Except.ok response =>
        if !response.ok then
          { status := response.status, headers := []
            body := RespBody.text "Failed to fetch image".toList }
        else
          let contentType := response.contentType
          { status := 200
            headers := [("Content-Type".toList, headerText contentType),
                        ("Cache-Control".toList, "public, max-age=86400".toList)]
            body := RespBody.bytes response.body }

/-! ## Reading a rendered number back -/

/-- The number a list of decimal digit characters denotes. -/
def decimalValue (l : List Char) : Nat :=
  l.foldl (fun a c => 10 * a + (c.toNat - 48)) 0

/-- The integer a rendered number denotes: the inverse of `numberToString`. -/
def parseNumber : Str → Int
  | '-' :: ds => - (decimalValue ds : Int)
  | ds => (decimalValue ds : Int)

/-! ## Sample data -/

/-- A digest function that agrees with MD5 on the payload of the examples, the single
byte `0xab`, whose MD5 digest is `2408ad11f9eb830da749e2a36a29eff7`. -/
def sampleMd5 : Bytes → Bytes :=
  fun _ => [36, 8, 173, 17, 249, 235, 131, 13, 167, 73, 226, 163, 106, 41, 239, 247]

/-- An `express.json()` that refuses every request with status 400. -/
def sampleJson : Str → Bytes → JsonOutcome :=
  fun _ _ => JsonOutcome.refused 400

/-- A directory with two expired files, a file aged exactly 24 hours at time 90000000
and a fresh file. -/
def sampleDir : Dir :=
  [("old.png".toList, { content := [1], mtime := 0 }),
   ("edge.png".toList, { content := [2], mtime := 3600000 }),
   ("new.jpeg".toList, { content := [3], mtime := 89999000 }),
   ("stuck.png".toList, { content := [4], mtime := 1000 })]

/-- The environment in which `stat` fails on `old.png` and `unlink` fails on
`stuck.png`. -/
def sampleFaults : Faults :=
  { writeFails := fun _ => false
    readdirFails := false
    statFails := fun name => name == "old.png".toList
    unlinkFails := fun name => name == "stuck.png".toList }

/-! ## Lemmas on the string helpers -/

/-- The characters `Nat.digitChar` can give. -/
theorem digitChar_mem (n : Nat) : Nat.digitChar n ∈ "0123456789abcdef*".toList := by
  by_cases h : n < 16
  · interval_cases n <;> decide
  · have hstar : Nat.digitChar n = '*' := by
      unfold Nat.digitChar
      iterate 16 rw [if_neg (by omega)]
    rw [hstar]; decide

theorem digitChar_ne_slash (n : Nat) : Nat.digitChar n ≠ '/' := by
  intro h
  have := digitChar_mem n
  rw [h] at this
  revert this; decide

theorem digitChar_ne_dot (n : Nat) : Nat.digitChar n ≠ '.' := by
  intro h
  have := digitChar_mem n
  rw [h] at this
  revert this; decide

theorem digitChar_ne_minus (n : Nat) : Nat.digitChar n ≠ '-' := by
  intro h
  have := digitChar_mem n
  rw [h] at this
  revert this; decide

theorem digitChar_val (d : Nat) (h : d < 10) : (Nat.digitChar d).toNat - 48 = d := by
  interval_cases d <;> rfl

/-- Every character `Nat.toDigitsCore` adds in front of `acc` is a digit character. -/
theorem toDigitsCore_chars (b : Nat) : ∀ (fuel n : Nat) (acc : List Char) (c : Char),
    c ∈ Nat.toDigitsCore b fuel n acc → c ∈ acc ∨ ∃ k, c = Nat.digitChar k := by
  intro fuel
  induction fuel with
  | zero => intro n acc c h; exact Or.inl (by simpa [Nat.toDigitsCore] using h)
  | succ f ih =>
    intro n acc c h
    simp only [Nat.toDigitsCore] at h
    split_ifs at h with h0
    · rcases List.mem_cons.mp h with h | h
      · exact Or.inr ⟨_, h⟩
      · exact Or.inl h
    · rcases ih _ _ _ h with h | h
      · rcases List.mem_cons.mp h with h | h
        · exact Or.inr ⟨_, h⟩
        · exact Or.inl h
      · exact Or.inr h

theorem toDigits_chars (n : Nat) (c : Char) (h : c ∈ Nat.toDigits 10 n) :
    ∃ k, c = Nat.digitChar k := by
  rcases toDigitsCore_chars 10 _ _ _ _ h with h | h
  · simp at h
  · exact h

/-- The accumulator of `Nat.toDigitsCore` ends up behind the digits produced. -/
theorem toDigitsCore_acc (b : Nat) : ∀ (fuel n : Nat) (acc : List Char),
    Nat.toDigitsCore b fuel n acc = Nat.toDigitsCore b fuel n [] ++ acc := by
  intro fuel
  induction fuel with
  | zero => intro n acc; simp [Nat.toDigitsCore]
  | succ f ih =>
    intro n acc
    simp only [Nat.toDigitsCore]
    split_ifs with h0
    · simp
    · rw [ih _ (_ :: acc), ih _ [_]]; simp

theorem decimalValue_toDigitsCore : ∀ (fuel n : Nat), n < fuel →
    decimalValue (Nat.toDigitsCore 10 fuel n []) = n := by
  intro fuel
  induction fuel with
  | zero => intro n h; omega
  | succ f ih =>
    intro n h
    simp only [Nat.toDigitsCore]
    split_ifs with h0
    · have hn : n < 10 := by omega
      simp only [decimalValue, List.foldl]
      rw [Nat.mod_eq_of_lt hn, digitChar_val n hn]; omega
    · rw [toDigitsCore_acc]
      have hlt : n / 10 < f := by omega
      have := ih (n / 10) hlt
      simp only [decimalValue, List.foldl_append, List.foldl] at this ⊢
      rw [this, digitChar_val _ (Nat.mod_lt _ (by decide))]; omega

theorem decimalValue_toDigits (n : Nat) : decimalValue (Nat.toDigits 10 n) = n :=
  decimalValue_toDigitsCore (n + 1) n (Nat.lt_succ_self n)

theorem parseNumber_numberToString (t : Int) : parseNumber (numberToString t) = t := by
  cases t with
  | ofNat n =>
    simp only [numberToString]
    have hd : ∀ c ∈ Nat.toDigits 10 n, c ≠ '-' := by
      intro c hc
      obtain ⟨k, rfl⟩ := toDigits_chars n c hc
      exact digitChar_ne_minus k
    have hval := decimalValue_toDigits n
    generalize Nat.toDigits 10 n = l at hd hval
    match l, hd, hval with
    | [], _, hval => simp [parseNumber, ← hval]
    | c :: cs, hd, hval =>
      have hc : c ≠ '-' := hd c (List.mem_cons_self _ _)
      unfold parseNumber
      split
      · rename_i heq; cases heq; exact absurd rfl hc
      · simp [hval]
  | negSucc n =>
    simp only [numberToString, parseNumber, decimalValue_toDigits]
    rfl

theorem numberToString_injective (t₁ t₂ : Int) (h : numberToString t₁ = numberToString t₂) :
    t₁ = t₂ := by
  rw [← parseNumber_numberToString t₁, ← parseNumber_numberToString t₂, h]

theorem numberToString_no_slash (t : Int) : '/' ∉ numberToString t := by
  intro h
  cases t with
  | ofNat n =>
    obtain ⟨k, hk⟩ := toDigits_chars n _ h
    exact digitChar_ne_slash k hk.symm
  | negSucc n =>
    simp only [numberToString] at h
    rcases List.mem_cons.mp h with h | h
    · exact absurd h (by decide)
    · obtain ⟨k, hk⟩ := toDigits_chars _ _ h
      exact digitChar_ne_slash k hk.symm

theorem numberToString_no_dot (t : Int) : '.' ∉ numberToString t := by
  intro h
  cases t with
  | ofNat n =>
    obtain ⟨k, hk⟩ := toDigits_chars n _ h
    exact digitChar_ne_dot k hk.symm
  | negSucc n =>
    simp only [numberToString] at h
    rcases List.mem_cons.mp h with h | h
    · exact absurd h (by decide)
    · obtain ⟨k, hk⟩ := toDigits_chars _ _ h
      exact digitChar_ne_dot k hk.symm

theorem hexDigest_no_slash (digest : Bytes) : '/' ∉ hexDigest digest := by
  intro h
  simp only [hexDigest, List.mem_flatMap, hexByte, List.mem_cons, List.mem_singleton,
    List.not_mem_nil, or_false] at h
  obtain ⟨b, -, h | h⟩ := h
  · exact digitChar_ne_slash _ h.symm
  · exact digitChar_ne_slash _ h.symm

/-- No piece of a split contains the separator. -/
theorem split_pieces (sep : Char) : ∀ (s : Str) (piece : Str),
    piece ∈ split sep s → sep ∉ piece := by
  intro s
  induction s with
  | nil => intro piece h; simp [split] at h; simp [h]
  | cons c cs ih =>
    intro piece h
    by_cases hc : c = sep
    · simp only [split, if_pos hc, List.mem_cons] at h
      rcases h with h | h
      · simp [h]
      · exact ih piece h
    · simp only [split, if_neg hc] at h
      cases hs : split sep cs with
      | nil => simp [hs] at h; simp [h]; exact fun h' => hc h'.symm
      | cons q rest =>
        rw [hs] at h
        rcases List.mem_cons.mp h with h | h
        · have hq : sep ∉ q := ih q (by simp [hs])
          rw [h]
          intro hm
          rcases List.mem_cons.mp hm with hm | hm
          · exact hc hm.symm
          · exact hq hm
        · exact ih piece (by simp [hs, h])

/-- A string without the separator is a single piece. -/
theorem split_of_not_mem (sep : Char) : ∀ (s : Str), sep ∉ s → split sep s = [s] := by
  intro s
  induction s with
  | nil => intro _; rfl
  | cons c cs ih =>
    intro h
    have hc : c ≠ sep := fun e => h (by simp [e])
    have hcs : sep ∉ cs := fun e => h (List.mem_cons_of_mem _ e)
    simp [split, hc, ih hcs]

/-- A string `T/S` with one separator splits into `T` and `S`. -/
theorem split_two (sep : Char) : ∀ (T S : Str), sep ∉ T → sep ∉ S →
    split sep (T ++ sep :: S) = [T, S] := by
  intro T
  induction T with
  | nil => intro S _ hS; simp [split, split_of_not_mem sep S hS]
  | cons c cs ih =>
    intro S hT hS
    have hc : c ≠ sep := fun e => hT (by simp [e])
    have hcs : sep ∉ cs := fun e => hT (List.mem_cons_of_mem _ e)
    simp [split, hc, ih S hcs hS]

/-- The second piece of a split, defaulted with `||`, never contains the separator
when the default does not. -/
theorem orElse_split_no_sep (sep : Char) (s dflt : Str) (hd : sep ∉ dflt) :
    sep ∉ orElse (split sep s)[1]? dflt := by
  cases h : (split sep s)[1]? with
  | none => simpa [orElse] using hd
  | some piece =>
    have hp : sep ∉ piece := split_pieces sep s piece (List.getElem?_mem h)
    simp only [orElse]
    split_ifs
    · exact hd
    · exact hp

/-- Two strings that agree up to and including the first occurrence of `c` have the
same part before it. -/
theorem append_cons_left_inj (c : Char) : ∀ (a b x y : Str), c ∉ a → c ∉ b →
    a ++ c :: x = b ++ c :: y → a = b := by
  intro a
  induction a with
  | nil =>
    intro b x y _ hb h
    cases b with
    | nil => rfl
    | cons d ds =>
      simp only [List.nil_append, List.cons_append, List.cons.injEq] at h
      exact absurd (by simp [h.1]) hb
  | cons e es ih =>
    intro b x y ha hb h
    cases b with
    | nil =>
      simp only [List.nil_append, List.cons_append, List.cons.injEq] at h
      exact absurd (by simp [h.1]) ha
    | cons d ds =>
      simp only [List.cons_append, List.cons.injEq] at h
      have hes : c ∉ es := fun m => ha (List.mem_cons_of_mem _ m)
      have hds : c ∉ ds := fun m => hb (List.mem_cons_of_mem _ m)
      rw [h.1, ih ds x y hes hds h.2]

theorem dropLeading_append : ∀ (pre s : Str), dropLeading pre (pre ++ s) = some s := by
  intro pre
  induction pre with
  | nil => intro s; cases s <;> rfl
  | cons p ps ih => intro s; simp [dropLeading, ih]

/-! ## Lemmas on the storage directory -/

theorem lookupFile_unlink_ne (dir : Dir) (name other : Str) (h : name ≠ other) :
    lookupFile (unlink dir other) name = lookupFile dir name := by
  simp only [lookupFile, unlink, List.find?_filter]
  congr 2
  funext e
  by_cases hn : e.1 = name
  · have ho : e.1 ≠ other := fun e' => h (hn.symm.trans e')
    simp [hn, ho, h]
  · simp [hn]

theorem lookupFile_unlink_self (dir : Dir) (name : Str) :
    lookupFile (unlink dir name) name = none := by
  simp only [lookupFile, unlink, List.find?_filter, Option.map_eq_none', List.find?_eq_none]
  intro e _
  by_cases hn : e.1 = name <;> simp [hn]

theorem lookupFile_append (d₁ d₂ : Dir) (name : Str) :
    lookupFile (d₁ ++ d₂) name = (lookupFile d₁ name).or (lookupFile d₂ name) := by
  simp only [lookupFile, List.find?_append]
  cases List.find? (fun e => e.1 == name) d₁ <;> simp

theorem lookupFile_writeFile_self (dir : Dir) (name : Str) (content : Bytes) (mtime : Int) :
    lookupFile (writeFile dir name content mtime) name
      = some { content := content, mtime := mtime } := by
  rw [writeFile, lookupFile_append, lookupFile_unlink_self]
  simp [lookupFile]

theorem lookupFile_writeFile_ne (dir : Dir) (name other : Str) (content : Bytes) (mtime : Int)
    (h : name ≠ other) :
    lookupFile (writeFile dir other content mtime) name = lookupFile dir name := by
  rw [writeFile, lookupFile_append, lookupFile_unlink_ne dir name other h]
  have : lookupFile [(other, ({ content := content, mtime := mtime } : File))] name = none := by
    simp [lookupFile, h.symm]
  rw [this]; cases lookupFile dir name <;> rfl

/-- In a directory with distinct names an entry is what its name looks up. -/
theorem lookupFile_of_mem : ∀ (dir : Dir), (readdir dir).Nodup → ∀ (e : Str × File),
    e ∈ dir → lookupFile dir e.1 = some e.2 := by
  intro dir
  induction dir with
  | nil => intro _ e h; simp at h
  | cons d ds ih =>
    intro hnd e he
    simp only [readdir, List.map_cons, List.nodup_cons] at hnd
    rcases List.mem_cons.mp he with rfl | he
    · simp [lookupFile]
    · have hne : d.1 ≠ e.1 := by
        intro heq
        exact hnd.1 (heq ▸ List.mem_map_of_mem Prod.fst he)
      have := ih hnd.2 e he
      simp only [lookupFile] at this ⊢
      simp [List.find?_cons, hne, this]

theorem lookupFile_none_of_not_mem (dir : Dir) (name : Str) (h : lookupFile dir name = none) :
    ∀ e ∈ dir, e.1 ≠ name := by
  intro e he heq
  simp only [lookupFile, Option.map_eq_none', List.find?_eq_none] at h
  exact h e he (by simp [heq])

theorem readdir_unlink_nodup (dir : Dir) (name : Str) (h : (readdir dir).Nodup) :
    (readdir (unlink dir name)).Nodup := by
  simp only [readdir, unlink] at h ⊢
  exact (List.filter_sublist dir).map Prod.fst |>.nodup h

/-! ## Lemmas on the sweep -/

/-- A file that is not older than the window is still there, unchanged, after the
loop, whatever names are swept and whichever calls fail. -/
theorem sweepLoop_keeps_young (faults : Faults) (now : Int) (name : Str) (f : File)
    (hf : ¬ (now - f.mtime > oneDayMs)) : ∀ (names : List Str) (dir : Dir),
    lookupFile dir name = some f →
    lookupFile (sweepLoop faults now dir names) name = some f := by
  intro names
  induction names with
  | nil => intro dir h; simpa [sweepLoop] using h
  | cons file rest ih =>
    intro dir h
    simp only [sweepLoop, sweepEntry]
    by_cases hs : faults.statFails file = true
    · simp only [hs, if_true]
      exact ih dir h
    · simp only [hs]
      cases hl : lookupFile dir file with
      | none => exact ih dir h
      | some st =>
        by_cases hold : now - st.mtime > oneDayMs
        · by_cases hu : faults.unlinkFails file = true
          · simp only [hold, hu, if_true]
            exact ih dir h
          · simp only [hold, hu, if_true]
            have hne : name ≠ file := by
              rintro rfl
              rw [h] at hl
              cases hl
              exact hf hold
            exact ih _ (by rw [lookupFile_unlink_ne dir name file hne]; exact h)
        · simp only [hold, if_false]
          exact ih dir h

/-- The loop over any list of names, on a directory with distinct names: an entry is
removed exactly when its name is swept, its `stat` and `unlink` succeed and it is
older than the window. -/
theorem sweepLoop_eq_filter (faults : Faults) (now : Int) : ∀ (names : List Str) (dir : Dir),
    (readdir dir).Nodup →
    sweepLoop faults now dir names = dir.filter (fun e =>
      !(decide (e.1 ∈ names)) || (faults.statFails e.1 || faults.unlinkFails e.1
        || decide (now - e.2.mtime ≤ oneDayMs))) := by
  intro names
  induction names with
  | nil => intro dir _; simp [sweepLoop]
  | cons file rest ih =>
    intro dir hnd
    simp only [sweepLoop, sweepEntry]
    by_cases hs : faults.statFails file = true
    · simp only [hs, if_true]
      rw [ih dir hnd]
      apply List.filter_congr
      intro e _
      by_cases hf : e.1 = file
      · simp [hf, hs]
      · simp [hf]
    · simp only [hs]
      cases hl : lookupFile dir file with
      | none =>
        simp only [if_false]
        rw [ih dir hnd]
        apply List.filter_congr
        intro e he
        have hne := lookupFile_none_of_not_mem dir file hl e he
        simp [hne]
      | some st =>
        have hst : ∀ e ∈ dir, e.1 = file → e.2 = st := by
          intro e he hf
          have := lookupFile_of_mem dir hnd e he
          rw [hf, hl] at this
          exact (Option.some.inj this).symm
        by_cases hold : now - st.mtime > oneDayMs
        · by_cases hu : faults.unlinkFails file = true
          · simp only [hold, hu, if_true, if_false, Bool.false_eq_true]
            rw [ih dir hnd]
            apply List.filter_congr
            intro e _
            by_cases hf : e.1 = file
            · simp [hf, hu]
            · simp [hf]
          · simp only [hold, hu, if_true, if_false, Bool.false_eq_true]
            rw [ih _ (readdir_unlink_nodup dir file hnd), unlink, List.filter_filter]
            apply List.filter_congr
            intro e he
            by_cases hf : e.1 = file
            · have h2 := hst e he hf
              have hnle : ¬ (now - st.mtime ≤ oneDayMs) := not_le.mpr hold
              simp [hf, hs, hu, h2, hnle]
            · simp [hf]
        · simp only [hold, if_false, Bool.false_eq_true]
          rw [ih dir hnd]
          apply List.filter_congr
          intro e he
          by_cases hf : e.1 = file
          · have h2 := hst e he hf
            have hle : now - st.mtime ≤ oneDayMs := not_lt.mp hold
            simp [hf, h2, hle]
          · simp [hf]

/-- The sweep of the whole listing of a directory with distinct names. -/
theorem sweepLoop_readdir (faults : Faults) (now : Int) (dir : Dir) (hnd : (readdir dir).Nodup) :
    sweepLoop faults now dir (readdir dir) = dir.filter (fun e =>
      faults.statFails e.1 || faults.unlinkFails e.1 || decide (now - e.2.mtime ≤ oneDayMs)) := by
  rw [sweepLoop_eq_filter faults now (readdir dir) dir hnd]
  apply List.filter_congr
  intro e he
  have : e.1 ∈ readdir dir := List.mem_map_of_mem Prod.fst he
  simp [this]

/-! ## Lemmas on the upload handler -/

/-- An image type is not the JSON type. -/
theorem isJsonType_of_isImageType (header : Option Str) (h : isImageType header = true) :
    isJsonType header = false := by
  simp only [isImageType, isJsonType] at h ⊢
  cases hm : mediaType header with
  | none => rfl
  | some ts =>
    obtain ⟨type, sub⟩ := ts
    rw [hm] at h
    have ht : type = "image".toList := by simpa using h
    subst ht
    rw [beq_eq_false_iff_ne]
    intro heq
    have h₁ : "image".toList = "application".toList := congrArg Prod.fst (Option.some.inj heq)
    exact absurd h₁ (by decide)

/-- The body of a request of an image type reaches the handler as a buffer. -/
theorem parseBody_of_isImageType (json : Str → Bytes → JsonOutcome) (B : Bytes)
    (ct : Option Str) (h : isImageType ct = true) :
    parseBody json (some B) ct = Parsed.body (ReqBody.buffer B) := by
  simp only [parseBody, isJsonType_of_isImageType ct h, h, if_true, if_false,
    Bool.false_eq_true]

/-- The outcome of an upload of a non-empty body of an image type whose write
succeeds. -/
theorem upload_of_write_ok (md5 : Bytes → Bytes) (json : Str → Bytes → JsonOutcome)
    (faults : Faults) (dir : Dir) (B : Bytes) (ct : Option Str) (now writeTime : Int)
    (hB : B ≠ []) (himage : isImageType ct = true)
    (hwrite : faults.writeFails (uploadFilename md5 B ct now) = false) :
    upload md5 json faults dir (some B) ct now writeTime =
      { response := { status := 200, headers := []
                      body := RespBody.jsonUrl ("/images/".toList ++ uploadFilename md5 B ct now) }
        dir := writeFile dir (uploadFilename md5 B ct now) B writeTime
        sweepCalled := true } := by
  have hlen : B.length ≠ 0 := fun h => hB (List.length_eq_zero.mp h)
  simp only [upload, parseBody_of_isImageType json B ct himage, uploadHandler, hlen, hwrite,
    if_false, Bool.false_eq_true]

/-- The outcome of an upload whose body the parsers do not take: `req.body` is `{}`,
`md5.update` throws and the handler answers 500. -/
theorem upload_of_unparsed (md5 : Bytes → Bytes) (json : Str → Bytes → JsonOutcome)
    (faults : Faults) (dir : Dir) (body : Option Bytes) (ct : Option Str) (now writeTime : Int)
    (hparse : parseBody json body ct = Parsed.body (ReqBody.object false)) :
    upload md5 json faults dir body ct now writeTime =
      { response := { status := 500, headers := [], body := RespBody.text "Server error".toList }
        dir := dir
        sweepCalled := false } := by
  simp only [upload, hparse, uploadHandler, if_false, Bool.false_eq_true]

/-- The name of an upload with the parts of the template literals spelled out. -/
theorem uploadFilename_eq (md5 : Bytes → Bytes) (B : Bytes) (ct : Option Str) (now : Int) :
    uploadFilename md5 B ct now =
      hexDigest (md5 B) ++ '-' :: numberToString now
        ++ '.' :: orElse (split '/' (orElse ct "image/jpeg".toList))[1]? "jpg".toList := rfl

theorem hexDigest_length (digest : Bytes) : (hexDigest digest).length = 2 * digest.length := by
  induction digest with
  | nil => rfl
  | cons b bs ih =>
    simp only [hexDigest, List.flatMap_cons, List.length_append, List.length_cons] at ih ⊢
    simp only [hexByte, List.length_cons, List.length_nil]
    omega

theorem hexDigest_chars (digest : Bytes) (c : Char) (h : c ∈ hexDigest digest) :
    c ∈ "0123456789abcdef".toList := by
  simp only [hexDigest, List.mem_flatMap, hexByte, List.mem_cons, List.mem_singleton,
    List.not_mem_nil, or_false] at h
  obtain ⟨b, -, h | h⟩ := h
  · have hlt : b.val / 16 < 16 := by omega
    rw [h]; generalize b.val / 16 = n at hlt
    interval_cases n <;> decide
  · have hlt : b.val % 16 < 16 := Nat.mod_lt _ (by decide)
    rw [h]; generalize b.val % 16 = n at hlt
    interval_cases n <;> decide

/-- The rendering of a clock value is the decimal numeral of the integer. -/
theorem numberToString_eq_toString (t : Int) : numberToString t = (toString t).toList := by
  cases t <;> rfl

/-! ## The claims -/

/-- C5. Two uploads of identical bytes at different times never share a filename: for
every payload, every pair of content-type headers and every pair of clock values
`t₁ ≠ t₂` the two derived names differ, so that writing the second file leaves what
the first name refers to untouched. -/
theorem upload_names_distinct (md5 : Bytes → Bytes) (P : Bytes) (c₁ c₂ : Option Str)
    (t₁ t₂ : Int) (ht : t₁ ≠ t₂) :
    uploadFilename md5 P c₁ t₁ ≠ uploadFilename md5 P c₂ t₂ ∧
      ∀ (dir : Dir) (content : Bytes) (writeTime : Int),
        lookupFile (writeFile dir (uploadFilename md5 P c₂ t₂) content writeTime)
            (uploadFilename md5 P c₁ t₁)
          = lookupFile dir (uploadFilename md5 P c₁ t₁) := by
  have hne : uploadFilename md5 P c₁ t₁ ≠ uploadFilename md5 P c₂ t₂ := by
    intro h
    rw [uploadFilename_eq, uploadFilename_eq, List.append_assoc, List.append_assoc] at h
    have h' := List.append_cancel_left h
    simp only [List.cons_append, List.cons.injEq, true_and] at h'
    exact ht (numberToString_injective t₁ t₂
      (append_cons_left_inj '.' _ _ _ _ (numberToString_no_dot t₁) (numberToString_no_dot t₂) h'))
  exact ⟨hne, fun dir content writeTime => lookupFile_writeFile_ne _ _ _ _ _ hne⟩

theorem upload_names_distinct_witness :
    uploadFilename sampleMd5 [171] (some "image/png".toList) 1700000000000
        ≠ uploadFilename sampleMd5 [171] (some "image/0.png".toList) 170000000000 ∧
      ∀ (dir : Dir) (content : Bytes) (writeTime : Int),
        lookupFile (writeFile dir
              (uploadFilename sampleMd5 [171] (some "image/0.png".toList) 170000000000)
              content writeTime)
            (uploadFilename sampleMd5 [171] (some "image/png".toList) 1700000000000)
          = lookupFile dir
              (uploadFilename sampleMd5 [171] (some "image/png".toList) 1700000000000) :=
  upload_names_distinct sampleMd5 [171] (some "image/png".toList) (some "image/0.png".toList)
    1700000000000 170000000000 (by decide)

/-- C10. The upload filename cannot escape the storage directory: for every body,
every content-type header whatsoever (present or absent) and every clock value, the
derived name contains no `/` and is neither `.` nor `..`. -/
theorem upload_name_stays_inside (md5 : Bytes → Bytes) (body : Bytes) (ct : Option Str)
    (now : Int) :
    '/' ∉ uploadFilename md5 body ct now ∧
      uploadFilename md5 body ct now ≠ ".".toList ∧
      uploadFilename md5 body ct now ≠ "..".toList := by
  have hdash : '-' ∈ uploadFilename md5 body ct now := by
    rw [uploadFilename_eq]; simp
  refine ⟨?_, ?_, ?_⟩
  · rw [uploadFilename_eq]
    intro h
    simp only [List.mem_append, List.mem_cons] at h
    rcases h with (h | h | h) | h | h
    · exact hexDigest_no_slash _ h
    · exact absurd h (by decide)
    · exact numberToString_no_slash _ h
    · exact absurd h (by decide)
    · exact orElse_split_no_sep '/' _ _ (by decide) h
  · intro h; rw [h] at hdash; revert hdash; decide
  · intro h; rw [h] at hdash; revert hdash; decide

/-- C1. Upload then fetch is a round trip: a non-empty payload `P` uploaded with the
content-type `image/png`, whose write succeeds, is answered with 200 and a JSON object
whose `url` ends in `.png`; a `GET` of that url at the static endpoint returns exactly
`P`, right after the upload and also once the sweep started by that upload is over,
whichever calls of the sweep fail.  The new file carries the time of the write and
the sweep reads its clock at most 24 hours after that time. -/
theorem upload_then_fetch_roundtrip (md5 : Bytes → Bytes) (json : Str → Bytes → JsonOutcome)
    (faults : Faults) (dir : Dir) (P : Bytes) (now writeTime sweepNow : Int)
    (hP : P ≠ [])
    (hwrite : faults.writeFails (uploadFilename md5 P (some "image/png".toList) now) = false)
    (hclock : sweepNow - writeTime ≤ oneDayMs) :
    ∃ url : Str,
      (uploadThenSweep md5 json faults dir (some P) (some "image/png".toList) now writeTime sweepNow).1
          = { status := 200, headers := [], body := RespBody.jsonUrl url } ∧
        ".png".toList <:+ url ∧
        serveImage (upload md5 json faults dir (some P) (some "image/png".toList) now writeTime).dir url
          = { status := 200, headers := [], body := RespBody.bytes P } ∧
        serveImage
            (uploadThenSweep md5 json faults dir (some P) (some "image/png".toList) now writeTime
              sweepNow).2 url
          = { status := 200, headers := [], body := RespBody.bytes P } := by
  have hup := upload_of_write_ok md5 json faults dir P (some "image/png".toList) now writeTime hP
    (by decide) hwrite
  have hname : uploadFilename md5 P (some "image/png".toList) now
      = hexDigest (md5 P) ++ '-' :: numberToString now ++ ".png".toList := rfl
  have hyoung : ¬ (sweepNow - ({ content := P, mtime := writeTime } : File).mtime > oneDayMs) :=
    not_lt.mpr hclock
  have hstored := lookupFile_writeFile_self dir
    (uploadFilename md5 P (some "image/png".toList) now) P writeTime
  have hswept : lookupFile
      (cleanupOldImages faults sweepNow
        (writeFile dir (uploadFilename md5 P (some "image/png".toList) now) P writeTime))
      (uploadFilename md5 P (some "image/png".toList) now)
      = some { content := P, mtime := writeTime } := by
    simp only [cleanupOldImages, cleanupTry]
    by_cases hls : faults.readdirFails = true
    · simp only [hls, if_true]; exact hstored
    · simp only [hls, if_false, Bool.false_eq_true]
      exact sweepLoop_keeps_young faults sweepNow _ _ hyoung _ _ hstored
  refine ⟨"/images/".toList ++ uploadFilename md5 P (some "image/png".toList) now, ?_, ?_, ?_, ?_⟩
  · simp only [uploadThenSweep, hup]
  · rw [hname]
    exact ⟨"/images/".toList ++ (hexDigest (md5 P) ++ '-' :: numberToString now), by simp⟩
  · simp only [hup, serveImage, dropLeading_append, hstored]
  · simp only [uploadThenSweep, hup, if_true, serveImage, dropLeading_append, hswept]

theorem upload_then_fetch_roundtrip_witness :
    ∃ url : Str,
      (uploadThenSweep sampleMd5 sampleJson noFaults
            [("old.png".toList, { content := [7], mtime := 0 })]
            (some [171]) (some "image/png".toList) 1700000000000 1700000000002 1700000000005).1
          = { status := 200, headers := [], body := RespBody.jsonUrl url } ∧
        ".png".toList <:+ url ∧
        serveImage (upload sampleMd5 sampleJson noFaults
            [("old.png".toList, { content := [7], mtime := 0 })]
            (some [171]) (some "image/png".toList) 1700000000000 1700000000002).dir url
          = { status := 200, headers := [], body := RespBody.bytes [171] } ∧
        serveImage
            (uploadThenSweep sampleMd5 sampleJson noFaults
              [("old.png".toList, { content := [7], mtime := 0 })]
              (some [171]) (some "image/png".toList) 1700000000000 1700000000002
              1700000000005).2 url
          = { status := 200, headers := [], body := RespBody.bytes [171] } :=
  upload_then_fetch_roundtrip sampleMd5 sampleJson noFaults
    [("old.png".toList, { content := [7], mtime := 0 })] [171]
    1700000000000 1700000000002 1700000000005 (by decide) rfl (by decide)

/-- C6, the claim as stated fails: with no failing `stat` or `unlink` call but a
failing `readdir`, the sweep at time 86400001 leaves the file `a.png`, last modified at
time 0 and so older than 24 hours, in the directory. -/
theorem cleanup_listing_failure_keeps_expired :
    cleanupOldImages
        { writeFails := fun _ => false, readdirFails := true
          statFails := fun _ => false, unlinkFails := fun _ => false }
        86400001 [("a.png".toList, { content := [7], mtime := 0 })]
      = [("a.png".toList, { content := [7], mtime := 0 })] ∧
      (86400001 : Int) - 0 > oneDayMs := by
  constructor
  · rfl
  · decide

/-- C6, amended. The retention sweep removes exactly the expired files: for every
storage directory (its names distinct) and every sweep time `now`, when the listing of
the directory succeeds and no `stat` or `unlink` call fails, the directory after
`cleanupOldImages` consists of exactly the entries with `now - last_modified` at most
24 hours (86,400,000 ms), in their order and with content and last-modified time
unchanged; every entry older than 24 hours is gone, and an entry aged exactly 24 hours
is retained. -/
theorem cleanup_removes_exactly_expired (faults : Faults) (dir : Dir) (now : Int)
    (hnd : (readdir dir).Nodup) (hls : faults.readdirFails = false)
    (hstat : ∀ name, faults.statFails name = false)
    (hunlink : ∀ name, faults.unlinkFails name = false) :
    cleanupOldImages faults now dir
        = dir.filter (fun e => decide (now - e.2.mtime ≤ oneDayMs)) ∧
      (∀ e, e ∈ cleanupOldImages faults now dir ↔ e ∈ dir ∧ now - e.2.mtime ≤ oneDayMs) ∧
      (∀ e ∈ dir, now - e.2.mtime > oneDayMs → e ∉ cleanupOldImages faults now dir) ∧
      (∀ e ∈ dir, now - e.2.mtime = oneDayMs → e ∈ cleanupOldImages faults now dir) ∧
      oneDayMs = 86400000 := by
  have heq : cleanupOldImages faults now dir
      = dir.filter (fun e => decide (now - e.2.mtime ≤ oneDayMs)) := by
    simp only [cleanupOldImages, cleanupTry, hls, if_false, Bool.false_eq_true]
    rw [sweepLoop_readdir faults now dir hnd]
    apply List.filter_congr
    intro e _
    simp [hstat, hunlink]
  have hmem : ∀ e, e ∈ cleanupOldImages faults now dir ↔ e ∈ dir ∧ now - e.2.mtime ≤ oneDayMs := by
    intro e; rw [heq]; simp [List.mem_filter]
  refine ⟨heq, hmem, ?_, ?_, by decide⟩
  · intro e _ hold hin
    exact absurd ((hmem e).mp hin).2 (not_le.mpr hold)
  · intro e he hage
    exact (hmem e).mpr ⟨he, le_of_eq hage⟩

theorem cleanup_removes_exactly_expired_witness :
    cleanupOldImages noFaults 90000000 sampleDir
        = sampleDir.filter (fun e => decide (90000000 - e.2.mtime ≤ oneDayMs)) ∧
      (∀ e, e ∈ cleanupOldImages noFaults 90000000 sampleDir ↔
        e ∈ sampleDir ∧ 90000000 - e.2.mtime ≤ oneDayMs) ∧
      (∀ e ∈ sampleDir, 90000000 - e.2.mtime > oneDayMs →
        e ∉ cleanupOldImages noFaults 90000000 sampleDir) ∧
      (∀ e ∈ sampleDir, 90000000 - e.2.mtime = oneDayMs →
        e ∈ cleanupOldImages noFaults 90000000 sampleDir) ∧
      oneDayMs = 86400000 :=
  cleanup_removes_exactly_expired noFaults sampleDir 90000000 (by decide) rfl
    (fun _ => rfl) (fun _ => rfl)

/-- C7. A per-entry failure never aborts the sweep: for every directory (its names
distinct) whose listing succeeds and every choice of the names on which `stat` or
`unlink` fails, the body of the outer `try` returns normally; every entry with a
failing call stays in the directory, and every other entry is removed if and only if
its age exceeds 24 hours. -/
theorem sweep_survives_entry_failures (faults : Faults) (dir : Dir) (now : Int)
    (hnd : (readdir dir).Nodup) (hls : faults.readdirFails = false) :
    cleanupTry faults now dir = Except.ok (cleanupOldImages faults now dir) ∧
      cleanupOldImages faults now dir
        = dir.filter (fun e => faults.statFails e.1 || faults.unlinkFails e.1
            || decide (now - e.2.mtime ≤ oneDayMs)) ∧
      (∀ e ∈ dir, faults.statFails e.1 = true ∨ faults.unlinkFails e.1 = true →
        e ∈ cleanupOldImages faults now dir) ∧
      (∀ e ∈ dir, faults.statFails e.1 = false → faults.unlinkFails e.1 = false →
        (e ∉ cleanupOldImages faults now dir ↔ now - e.2.mtime > oneDayMs)) := by
  have heq : cleanupOldImages faults now dir
      = dir.filter (fun e => faults.statFails e.1 || faults.unlinkFails e.1
          || decide (now - e.2.mtime ≤ oneDayMs)) := by
    simp only [cleanupOldImages, cleanupTry, hls, if_false, Bool.false_eq_true]
    exact sweepLoop_readdir faults now dir hnd
  refine ⟨?_, heq, ?_, ?_⟩
  · simp only [cleanupOldImages, cleanupTry, hls, if_false, Bool.false_eq_true]
  · intro e he hF
    rw [heq, List.mem_filter]
    refine ⟨he, ?_⟩
    rcases hF with h | h <;> simp [h]
  · intro e he h₁ h₂
    rw [heq, List.mem_filter]
    simp only [h₁, h₂, Bool.false_or, decide_eq_true_eq, he, true_and, not_le]

theorem sweep_survives_entry_failures_witness :
    cleanupTry sampleFaults 99000000 sampleDir
        = Except.ok (cleanupOldImages sampleFaults 99000000 sampleDir) ∧
      cleanupOldImages sampleFaults 99000000 sampleDir
        = sampleDir.filter (fun e => sampleFaults.statFails e.1 || sampleFaults.unlinkFails e.1
            || decide (99000000 - e.2.mtime ≤ oneDayMs)) ∧
      (∀ e ∈ sampleDir, sampleFaults.statFails e.1 = true ∨ sampleFaults.unlinkFails e.1 = true →
        e ∈ cleanupOldImages sampleFaults 99000000 sampleDir) ∧
      (∀ e ∈ sampleDir, sampleFaults.statFails e.1 = false → sampleFaults.unlinkFails e.1 = false →
        (e ∉ cleanupOldImages sampleFaults 99000000 sampleDir ↔
          99000000 - e.2.mtime > oneDayMs)) :=
  sweep_survives_entry_failures sampleFaults sampleDir 99000000 (by decide) rfl

/-- C8. The proxy forwards an upstream failure status: when the `url` parameter is
present and non-empty (so that the handler issues the fetch) and the fetch completes
with a status outside 200-299, the handler answers with that status and the text
`Failed to fetch image`, sets no header, and sends nothing of the upstream
content-type or body. -/
theorem proxy_forwards_failure_status (fetch : Str → Except IoError Upstream) (url : Str)
    (up : Upstream) (hurl : url ≠ []) (hfetch : fetch url = Except.ok up)
    (hstatus : ¬ (200 ≤ up.status ∧ up.status ≤ 299)) :
    proxy fetch (some url) =
      { status := up.status, headers := []
        body := RespBody.text "Failed to fetch image".toList } := by
  have hne : url.isEmpty = false := by cases url <;> simp_all
  have hok : up.ok = false := by
    simp only [Upstream.ok]
    by_cases h₁ : 200 ≤ up.status
    · have h₂ : ¬ up.status ≤ 299 := fun h => hstatus ⟨h₁, h⟩
      simp [h₂]
    · simp [h₁]
  simp only [proxy, hne, hfetch, hok, Bool.false_eq_true, if_false, Bool.not_false, if_true]

theorem proxy_forwards_failure_status_witness :
    proxy (fun _ => Except.ok { status := 404, contentType := some "text/html".toList, body := [60] })
        (some "http://kavita.local/cover.png".toList) =
      { status := 404, headers := []
        body := RespBody.text "Failed to fetch image".toList } :=
  proxy_forwards_failure_status
    (fun _ => Except.ok { status := 404, contentType := some "text/html".toList, body := [60] })
    "http://kavita.local/cover.png".toList
    { status := 404, contentType := some "text/html".toList, body := [60] }
    (by decide) rfl (by decide)

/-- C2, the code at the failing inputs: a request with no body, whatever its
content-type, and a request with an empty body and no content-type or the type
`text/plain`, reach the handler with `req.body` equal to `{}`, which the guard of
line 57 lets pass; `md5.update` throws and the answer is 500 `Server error`, not 400.
No file is written and no sweep is started.  An empty body of type `image/png` is an
empty buffer and is answered 400. -/
theorem upload_empty_body_server_error (md5 : Bytes → Bytes) (json : Str → Bytes → JsonOutcome)
    (faults : Faults) (dir : Dir) (ct : Option Str) (now writeTime : Int) :
    upload md5 json faults dir none ct now writeTime =
        { response := { status := 500, headers := [], body := RespBody.text "Server error".toList }
          dir := dir
          sweepCalled := false } ∧
      upload md5 json faults dir (some []) none now writeTime =
        { response := { status := 500, headers := [], body := RespBody.text "Server error".toList }
          dir := dir
          sweepCalled := false } ∧
      upload md5 json faults dir (some []) (some "text/plain".toList) now writeTime =
        { response := { status := 500, headers := [], body := RespBody.text "Server error".toList }
          dir := dir
          sweepCalled := false } ∧
      upload md5 json faults dir (some []) (some "image/png".toList) now writeTime =
        { response :=
            { status := 400, headers := [], body := RespBody.text "No image data provided".toList }
          dir := dir
          sweepCalled := false } := by
  refine ⟨upload_of_unparsed _ _ _ _ _ _ _ _ rfl, upload_of_unparsed _ _ _ _ _ _ _ _ rfl,
    upload_of_unparsed _ _ _ _ _ _ _ _ ?_, ?_⟩
  · have hj : isJsonType (some "text/plain".toList) = false := by decide
    have hi : isImageType (some "text/plain".toList) = false := by decide
    simp only [parseBody, hj, hi, if_false, Bool.false_eq_true]
  · have hi : isImageType (some "image/png".toList) = true := by decide
    simp only [upload, parseBody_of_isImageType json [] _ hi, uploadHandler, List.length_nil,
      if_true]

/-- C3, the claim as stated fails: an upload of the one byte `0xab` with no
content-type header is not taken by the parser of line 23 and is answered 500
`Server error`; nothing is stored and no url is returned.  The name lines 62-66
derive for that body with no content-type header at time 1700000000000 is
`2408ad11f9eb830da749e2a36a29eff7-1700000000000.jpeg`, which does not end in `.jpg`. -/
theorem upload_default_extension_not_jpg :
    upload sampleMd5 sampleJson noFaults [] (some [171]) none 1700000000000 1700000000002 =
        { response := { status := 500, headers := [], body := RespBody.text "Server error".toList }
          dir := []
          sweepCalled := false } ∧
      uploadFilename sampleMd5 [171] none 1700000000000
        = "2408ad11f9eb830da749e2a36a29eff7-1700000000000.jpeg".toList ∧
      ¬ (".jpg".toList <:+ uploadFilename sampleMd5 [171] none 1700000000000) := by
  have hname : uploadFilename sampleMd5 [171] none 1700000000000
      = "2408ad11f9eb830da749e2a36a29eff7-1700000000000.jpeg".toList := by decide
  refine ⟨upload_of_unparsed _ _ _ _ _ _ _ _ rfl, hname, ?_⟩
  rw [hname]; decide

/-- C3, amended. When the content-type header of an upload is absent, the parser of
line 23, which takes only image types, leaves the body unparsed: for every body
uploaded with no content-type header the directory is left as it was, no sweep is
started and no `url` is returned.  The default `image/jpeg` of line 64 gives the
extension `jpeg`, its subtype, so the name that lines 62-66 derive with no content-type
header is `<hex MD5>-<ms>.jpeg`. -/
theorem upload_default_extension (md5 : Bytes → Bytes) (json : Str → Bytes → JsonOutcome)
    (faults : Faults) (dir : Dir) (B : Bytes) (now writeTime : Int) :
    (upload md5 json faults dir (some B) none now writeTime).dir = dir ∧
      (upload md5 json faults dir (some B) none now writeTime).sweepCalled = false ∧
      (∀ url, (upload md5 json faults dir (some B) none now writeTime).response.body
        ≠ RespBody.jsonUrl url) ∧
      orElse none "image/jpeg".toList = "image/jpeg".toList ∧
      orElse (split '/' "image/jpeg".toList)[1]? "jpg".toList = "jpeg".toList ∧
      uploadFilename md5 B none now
        = hexDigest (md5 B) ++ '-' :: numberToString now ++ ".jpeg".toList ∧
      ".jpeg".toList <:+ uploadFilename md5 B none now := by
  have hname : uploadFilename md5 B none now
      = hexDigest (md5 B) ++ '-' :: numberToString now ++ ".jpeg".toList := rfl
  rw [upload_of_unparsed md5 json faults dir (some B) none now writeTime rfl]
  refine ⟨rfl, rfl, fun url h => ?_, rfl, by decide, hname,
    ⟨hexDigest (md5 B) ++ '-' :: numberToString now, hname.symm⟩⟩
  exact RespBody.noConfusion h

/-- C4, the claim as stated fails: an upload of the one byte `0xab` with the
content-type `text/plain`, of the form `T/S`, in an environment where no write fails,
is not taken by the parser of line 23 and is answered 500 `Server error`; no file is
written. -/
theorem upload_postcondition_not_for_text :
    "text/plain".toList = "text".toList ++ '/' :: "plain".toList ∧
      upload sampleMd5 sampleJson noFaults [] (some [171]) (some "text/plain".toList)
          1700000000000 1700000000002 =
        { response := { status := 500, headers := [], body := RespBody.text "Server error".toList }
          dir := []
          sweepCalled := false } := by
  refine ⟨by decide, upload_of_unparsed _ _ _ _ _ _ _ _ ?_⟩
  have hj : isJsonType (some "text/plain".toList) = false := by decide
  have hi : isImageType (some "text/plain".toList) = false := by decide
  simp only [parseBody, hj, hi, if_false, Bool.false_eq_true]

/-- C4, amended. Postcondition of a successful upload: for a non-empty body `B`, a
declared content-type `T/S` with `S` non-empty and `T`, `S` free of `/` that the
parser of line 23 takes as an image type, and a clock value `t`, when the write
succeeds the handler writes the one file `<hex MD5 of B>-<decimal t>.<S>` holding
exactly `B` (every other name of the directory refers to what it referred to before),
answers 200 with the JSON object whose `url` is `/images/<that filename>`, and starts
the sweep.  The hex part has two characters of `0-9a-f` for each byte of the digest
and the decimal part is the numeral of `t`. -/
theorem upload_postcondition (md5 : Bytes → Bytes) (json : Str → Bytes → JsonOutcome)
    (faults : Faults) (dir : Dir) (B : Bytes) (T S : Str) (t writeTime : Int)
    (hB : B ≠ []) (hS : S ≠ []) (hT' : '/' ∉ T) (hS' : '/' ∉ S)
    (himage : isImageType (some (T ++ '/' :: S)) = true)
    (hwrite : faults.writeFails
      (hexDigest (md5 B) ++ '-' :: numberToString t ++ '.' :: S) = false) :
    uploadFilename md5 B (some (T ++ '/' :: S)) t
        = hexDigest (md5 B) ++ '-' :: numberToString t ++ '.' :: S ∧
      upload md5 json faults dir (some B) (some (T ++ '/' :: S)) t writeTime =
        { response :=
            { status := 200, headers := []
              body := RespBody.jsonUrl
                ("/images/".toList ++ (hexDigest (md5 B) ++ '-' :: numberToString t ++ '.' :: S)) }
          dir := writeFile dir
            (hexDigest (md5 B) ++ '-' :: numberToString t ++ '.' :: S) B writeTime
          sweepCalled := true } ∧
      lookupFile (upload md5 json faults dir (some B) (some (T ++ '/' :: S)) t writeTime).dir
          (hexDigest (md5 B) ++ '-' :: numberToString t ++ '.' :: S)
        = some { content := B, mtime := writeTime } ∧
      (∀ other : Str, other ≠ hexDigest (md5 B) ++ '-' :: numberToString t ++ '.' :: S →
        lookupFile (upload md5 json faults dir (some B) (some (T ++ '/' :: S)) t writeTime).dir
            other
          = lookupFile dir other) ∧
      (hexDigest (md5 B)).length = 2 * (md5 B).length ∧
      (∀ c ∈ hexDigest (md5 B), c ∈ "0123456789abcdef".toList) ∧
      numberToString t = (toString t).toList := by
  have hct : orElse (some (T ++ '/' :: S)) "image/jpeg".toList = T ++ '/' :: S := by
    cases T <;> simp [orElse]
  have hext : orElse (split '/' (T ++ '/' :: S))[1]? "jpg".toList = S := by
    rw [split_two '/' T S hT' hS']
    cases S with
    | nil => exact absurd rfl hS
    | cons c cs => simp [orElse]
  have hname : uploadFilename md5 B (some (T ++ '/' :: S)) t
      = hexDigest (md5 B) ++ '-' :: numberToString t ++ '.' :: S := by
    rw [uploadFilename_eq, hct, hext]
  have hup := upload_of_write_ok md5 json faults dir B (some (T ++ '/' :: S)) t writeTime hB
    himage (by rw [hname]; exact hwrite)
  rw [hname] at hup
  rw [hup]
  exact ⟨hname, rfl, lookupFile_writeFile_self _ _ _ _,
    fun other hne => lookupFile_writeFile_ne _ _ _ _ _ hne,
    hexDigest_length _, hexDigest_chars _, numberToString_eq_toString t⟩

theorem upload_postcondition_witness :
    uploadFilename sampleMd5 [171] (some "image/webp".toList) 1700000000000
        = "2408ad11f9eb830da749e2a36a29eff7-1700000000000.webp".toList ∧
      upload sampleMd5 sampleJson noFaults [] (some [171]) (some "image/webp".toList)
          1700000000000 1700000000002 =
        { response :=
            { status := 200, headers := []
              body := RespBody.jsonUrl
                "/images/2408ad11f9eb830da749e2a36a29eff7-1700000000000.webp".toList }
          dir := [("2408ad11f9eb830da749e2a36a29eff7-1700000000000.webp".toList,
                   { content := [171], mtime := 1700000000002 })]
          sweepCalled := true } ∧
      lookupFile (upload sampleMd5 sampleJson noFaults [] (some [171])
            (some "image/webp".toList) 1700000000000 1700000000002).dir
          "2408ad11f9eb830da749e2a36a29eff7-1700000000000.webp".toList
        = some { content := [171], mtime := 1700000000002 } ∧
      (∀ other : Str, other ≠ "2408ad11f9eb830da749e2a36a29eff7-1700000000000.webp".toList →
        lookupFile (upload sampleMd5 sampleJson noFaults [] (some [171])
            (some "image/webp".toList) 1700000000000 1700000000002).dir other
          = lookupFile [] other) ∧
      hexDigest (sampleMd5 [171]) = "2408ad11f9eb830da749e2a36a29eff7".toList ∧
      numberToString 1700000000000 = "1700000000000".toList := by
  have h := upload_postcondition sampleMd5 sampleJson noFaults [] [171] "image".toList
    "webp".toList 1700000000000 1700000000002 (by decide) (by decide) (by decide) (by decide)
    (by decide) rfl
  have hct : "image".toList ++ '/' :: "webp".toList = "image/webp".toList := by decide
  have hname : hexDigest (sampleMd5 [171]) ++ '-' :: numberToString 1700000000000
      ++ '.' :: "webp".toList
      = "2408ad11f9eb830da749e2a36a29eff7-1700000000000.webp".toList := by decide
  have hurl : "/images/".toList ++ "2408ad11f9eb830da749e2a36a29eff7-1700000000000.webp".toList
      = "/images/2408ad11f9eb830da749e2a36a29eff7-1700000000000.webp".toList := by decide
  rw [hct, hname, hurl] at h
  exact ⟨h.1, h.2.1, h.2.2.1, h.2.2.2.1, by decide, by decide⟩

/-- C9, the code at the failing input: the upstream answers 200 with a body and no
content-type header, so that `response.headers.get('content-type')` is `null`; the
handler calls `res.setHeader('Content-Type', null)` and the response carries the
header `Content-Type: null`, which a direct fetch of that url does not give. -/
theorem proxy_missing_content_type_sends_null :
    proxy (fun _ => Except.ok { status := 200, contentType := none, body := [137, 80, 78, 71] })
        (some "http://kavita.local/cover.png".toList) =
      { status := 200
        headers := [("Content-Type".toList, "null".toList),
                    ("Cache-Control".toList, "public, max-age=86400".toList)]
        body := RespBody.bytes [137, 80, 78, 71] } := by
  decide

end CoverArt
